import Mathlib

/-!
# Verification of the ansible-plugins repository against its specification

This file gives a shallow embedding of the parts of the repository that the
frozen claims refer to:

* `action_plugins/deploy_config.py` — the `ActionModule.run` deploy/validate/
  rollback workflow.  The workflow issues remote operations through the host
  runtime's `_execute_module`; we model the host runtime as an *oracle*
  (`Oracle`) supplying the structured result of each remote call, and the
  embedding returns both the result dictionary (`DeployResult`) and the exact
  trace of remote operations issued (`List RemoteOp`).  Local file contents are
  modelled as a function `String → List Nat` (path to bytes), and the
  `hashlib.md5` digest — an external library primitive — as an abstract
  parameter `hash : List Nat → String`.
* `filter_plugins/linux_utils.py` — the pure filters `octal_to_symbolic`,
  `symbolic_to_octal` (Python strings modelled as `List Char`) and
  `calculate_disk_usage_percent` (Python floats modelled as exact rationals,
  a standard abstraction of the branch structure of the function).
-/

namespace DeployConfig

/-- One remote operation issued through `_execute_module`, recorded with the
module arguments the plugin passes.  `copy` records `src`, `dest`, the
`remote_src` flag and the optional `owner`/`group`/`mode` forwarded to the
copy module; `command` records the `_raw_params` string; `fileAbsent` is the
`file` module with `state=absent` (backup deletion). -/
inductive RemoteOp where
  | stat (path : String)
  | copy (src dest : String) (remoteSrc : Bool)
         (owner group mode : Option String)
  | command (raw : String)
  | fileAbsent (path : String)
  deriving DecidableEq, Repr

/-- `True` for the `copy` module invoked with `remote_src=True`
(backup creation and rollback restore are the only such calls). -/
def RemoteOp.isRemoteSrcCopy : RemoteOp → Bool
  | .copy _ _ remoteSrc _ _ _ => remoteSrc
  | _ => false

/-- `True` for the `copy` module invoked without `remote_src`
(the deploy copy of the control-node source to the destination). -/
def RemoteOp.isLocalCopy : RemoteOp → Bool
  | .copy _ _ remoteSrc _ _ _ => !remoteSrc
  | _ => false

/-- `True` for the `file` module with `state=absent` (backup deletion). -/
def RemoteOp.isDelete : RemoteOp → Bool
  | .fileAbsent _ => true
  | _ => false

/-- `True` for the `command` module (validation). -/
def RemoteOp.isCommand : RemoteOp → Bool
  | .command _ => true
  | _ => false

/-- The task arguments read in `ActionModule.run` via `self._task.args.get`:
`src`, `dest`, `validate`, `backup` (default `True`), `owner`, `group`,
`mode`.  Absent keys are `none`. -/
structure Task where
  src : Option String := none
  dest : Option String := none
  validate : Option String := none
  backup : Bool := true
  owner : Option String := none
  group : Option String := none
  mode : Option String := none
  deriving DecidableEq, Repr

/-- The `stat` module result, with the dictionary defaults of
`stat_result.get('stat', {}).get('exists', False)` and `.get('checksum', None)`
already absorbed. -/
structure StatRes where
  fileExists : Bool := false
  checksum : Option String := none
  deriving DecidableEq, Repr

/-- A `copy` module result: `.get('failed')` truthiness as `failed`,
`.get('changed', False)` as `changed`, `.get('msg')` as `msg`
(`none` when the key is absent). -/
structure CopyRes where
  failed : Bool := false
  changed : Bool := false
  msg : Option String := none
  deriving DecidableEq, Repr

/-- A `command` module result: `rc`, `stdout`, `stderr`, each `none` when the
key is absent (the plugin reads them with `.get` and a default). -/
structure CmdRes where
  rc : Option Int := none
  stdout : Option String := none
  stderr : Option String := none
  deriving DecidableEq, Repr

/-- The host-runtime oracle: the outcome of `self._find_needle('files', src)`
(`none` models the `AnsibleActionFail` raise, with message `findErr`), and the
structured results the runtime returns for the `stat` call, the
backup `copy` call, the deploy `copy` call and the validation `command` call.
The results of the rollback `copy` and of the backup deletion are ignored by
the plugin, so the oracle does not carry them. -/
structure Oracle where
  findNeedle : Option String := none
  findErr : String := ""
  statRes : StatRes := {}
  backupRes : CopyRes := {}
  copyRes : CopyRes := {}
  cmdRes : CmdRes := {}
  deriving DecidableEq, Repr

/-- The result dictionary built by `ActionModule.run`.  A key that was never
assigned is `none`; `failed` defaults to falsy. -/
structure DeployResult where
  failed : Bool := false
  msg : Option String := none
  changed : Option Bool := none
  dest : Option String := none
  checksum : Option String := none
  backup_file : Option String := none
  validation : Option String := none
  validation_output : Option String := none
  deriving DecidableEq, Repr

/-- Python truthiness of an optional string (`None` and `''` are falsy). -/
def optTruthy : Option String → Bool
  | none => false
  | some s => !s.isEmpty

/-- Rendering of an optional string inside a Python f-string
(`None` prints as `"None"`). -/
def pyShow : Option String → String
  | none => "None"
  | some s => s

/-- The backup path `f"{dest}.backup"`. -/
def backupPath (dest : String) : String := dest ++ ".backup"

/-- `owner` forwarded to the copy module only when truthy
(`if owner: copy_args['owner'] = owner`). -/
def effOwner (t : Task) : Option String :=
  if optTruthy t.owner then t.owner else none

/-- `group` forwarded to the copy module only when truthy. -/
def effGroup (t : Task) : Option String :=
  if optTruthy t.group then t.group else none

/-- `mode` forwarded to the copy module only when truthy. -/
def effMode (t : Task) : Option String :=
  if optTruthy t.mode then t.mode else none

/-- `validate_cmd.replace('%s', dest)` specialised to the fixed two-character
pattern `%s`: every non-overlapping occurrence, scanned left to right, is
replaced by `dest`. -/
def substPercentS (dest : String) : List Char → List Char
  | '%' :: 's' :: rest => dest.data ++ substPercentS dest rest
  | c :: rest => c :: substPercentS dest rest
  | [] => []

/-- `validate_cmd.replace('%s', dest)` on Lean strings. -/
def replacePercentS (v dest : String) : String :=
  String.mk (substPercentS dest v.data)

/-- Step 7 of the workflow (`# Step 7: Remove backup ...`) followed by the
final success message: delete the backup when one was recorded and `backup`
is falsy, then set `msg` to the success line. -/
def stepCleanup (backup : Bool) (backupFile : Option String)
    (source dest : String) (res : DeployResult) (ops : List RemoteOp) :
    DeployResult × List RemoteOp :=
  let ops :=
    match backupFile with
    | some bf => if backup then ops else ops ++ [RemoteOp.fileAbsent bf]
    | none => ops
  ({ res with msg := some ("Successfully deployed " ++ source ++ " to " ++ dest) },
   ops)

/-- Step 6 of the workflow (`# Step 6: Validate deployed configuration`):
when `validate_cmd` is truthy, substitute `%s`, run the `command` module,
and on non-zero `rc` issue the rollback copy (when a backup exists) and
return the validation failure; on zero `rc` record `validation='passed'`
and continue to cleanup. -/
def stepValidate (t : Task) (source dest : String) (backupFile : Option String)
    (o : Oracle) (res : DeployResult) (ops : List RemoteOp) :
    DeployResult × List RemoteOp :=
  if optTruthy t.validate then
    let cmd := replacePercentS (t.validate.getD "") dest
    let ops := ops ++ [RemoteOp.command cmd]
    if o.cmdRes.rc.getD 0 ≠ 0 then
      let ops :=
        match backupFile with
        | some bf => ops ++ [RemoteOp.copy bf dest true none none none]
        | none => ops
      ({ res with
          failed := true
          msg := some ("Validation failed: " ++ o.cmdRes.stderr.getD "Unknown error")
          validation_output := some (o.cmdRes.stdout.getD "") },
       ops)
    else
      stepCleanup t.backup backupFile source dest
        { res with
            validation := some "passed"
            validation_output := some (o.cmdRes.stdout.getD "") }
        ops
  else
    stepCleanup t.backup backupFile source dest res ops

/-- Step 5 of the workflow (`# Step 5: Copy file to remote host`): issue the
deploy copy with the truthy subset of `owner`/`group`/`mode`; on failure
return `Copy failed`, otherwise record `changed`, `dest`, `checksum` and
continue to validation. -/
def stepCopy (t : Task) (source dest chk : String) (backupFile : Option String)
    (o : Oracle) (res : DeployResult) (ops : List RemoteOp) :
    DeployResult × List RemoteOp :=
  let ops := ops ++ [RemoteOp.copy source dest false (effOwner t) (effGroup t) (effMode t)]
  if o.copyRes.failed then
    ({ res with
        failed := true
        msg := some ("Copy failed: " ++ pyShow o.copyRes.msg) }, ops)
  else
    stepValidate t source dest backupFile o
      { res with
          changed := some o.copyRes.changed
          dest := some dest
          checksum := some chk }
      ops

/-- The embedding of `ActionModule.run`: argument validation, source
resolution, source checksum, remote `stat`, conditional backup, deploy copy,
conditional validation with rollback, conditional backup deletion.  Returns
the result dictionary and the trace of remote operations issued, in order. -/
def run (hash : List Nat → String) (localRead : String → List Nat)
    (t : Task) (o : Oracle) : DeployResult × List RemoteOp :=
  match t.src with
  | none => ({ failed := true, msg := some "src is required" }, [])
  | some _ =>
    match t.dest with
    | none => ({ failed := true, msg := some "dest is required" }, [])
    | some dest =>
      match o.findNeedle with
      | none => ({ failed := true, msg := some o.findErr }, [])
      | some source =>
        let chk := hash (localRead source)
        let ops : List RemoteOp := [RemoteOp.stat dest]
        if t.backup && o.statRes.fileExists then
          let ops := ops ++ [RemoteOp.copy dest (backupPath dest) true none none none]
          if o.backupRes.failed then
            ({ failed := true,
               msg := some ("Backup failed: " ++ pyShow o.backupRes.msg) }, ops)
          else
            stepCopy t source dest chk (some (backupPath dest)) o
              { backup_file := some (backupPath dest) } ops
        else
          stepCopy t source dest chk none o {} ops

/-- Contractual semantics of one remote operation on the remote filesystem
(path → file bytes), per §6 of the specification: `remote_copy` copies bytes
(from the control node when `remote_src` is false, remotely otherwise),
`remote_delete` removes the file, `remote_status` and `remote_command` do not
modify the filesystem. -/
def applyOp (localRead : String → List Nat) (fs : String → Option (List Nat)) :
    RemoteOp → (String → Option (List Nat))
  | RemoteOp.stat _ => fs
  | RemoteOp.command _ => fs
  | RemoteOp.fileAbsent p => fun q => if q = p then none else fs q
  | RemoteOp.copy src dst remoteSrc _ _ _ =>
      if remoteSrc then fun q => if q = dst then fs src else fs q
      else fun q => if q = dst then some (localRead src) else fs q

/-- Effect of a whole trace of remote operations on the remote filesystem. -/
def applyOps (localRead : String → List Nat) (fs : String → Option (List Nat))
    (ops : List RemoteOp) : String → Option (List Nat) :=
  ops.foldl (applyOp localRead) fs

end DeployConfig

namespace LinuxUtils

/-- A character Python's `int(s, 8)` accepts as an octal digit
(`'0'` … `'7'`), on the character's code point. -/
def isOctalDigit (c : Char) : Bool := 48 ≤ c.toNat && c.toNat ≤ 55

/-- Value of an octal digit string, most significant digit first
(the accumulator form of `int(s, 8)`). -/
def octDigitsVal (l : List Char) : Nat :=
  l.foldl (fun a c => a * 8 + (c.toNat - 48)) 0

/-- `int(s, 8)` on a digit string: `none` models the `ValueError` raise on an
empty string or a non-octal character. -/
def parseOctal (l : List Char) : Option Nat :=
  if l.isEmpty then none
  else if l.all isOctalDigit then some (octDigitsVal l) else none

/-- One `rwx` triple of `octal_to_symbolic`: the three characters appended
for a 3-bit permission group. -/
def rwxTriple (bits : Nat) : List Char :=
  [if bits &&& 4 ≠ 0 then 'r' else '-',
   if bits &&& 2 ≠ 0 then 'w' else '-',
   if bits &&& 1 ≠ 0 then 'x' else '-']

/-- `octal_to_symbolic` from `filter_plugins/linux_utils.py`, Python strings
modelled as `List Char`: strip leading `'0'`s (falling back to `"0"` when
nothing is left), parse base 8, then render the three permission groups for
shifts 6, 3, 0.  `none` models the `AnsibleFilterError` raise. -/
def octal_to_symbolic (l : List Char) : Option (List Char) :=
  let l := l.dropWhile (· = '0')
  let l := if l.isEmpty then ['0'] else l
  match parseOctal l with
  | none => none
  | some v =>
      some (rwxTriple ((v >>> 6) &&& 7) ++ rwxTriple ((v >>> 3) &&& 7) ++
            rwxTriple (v &&& 7))

/-- `symbolic_to_octal` from `filter_plugins/linux_utils.py`: reject inputs
whose length is not 9, sum the octal weights of the `r`/`w`/`x` positions,
and render `oct(value)[2:]` (most-significant-first octal digits, `"0"` for
zero, as `Nat.toDigits 8` produces). -/
def symbolic_to_octal (l : List Char) : Option (List Char) :=
  if l.length ≠ 9 then none
  else
    let v :=
      (if l.get? 0 = some 'r' then 256 else 0) +
      (if l.get? 1 = some 'w' then 128 else 0) +
      (if l.get? 2 = some 'x' then 64 else 0) +
      (if l.get? 3 = some 'r' then 32 else 0) +
      (if l.get? 4 = some 'w' then 16 else 0) +
      (if l.get? 5 = some 'x' then 8 else 0) +
      (if l.get? 6 = some 'r' then 4 else 0) +
      (if l.get? 7 = some 'w' then 2 else 0) +
      (if l.get? 8 = some 'x' then 1 else 0)
    some (Nat.toDigits 8 v)

/-- Python's `round` to an integer on an exact rational: round half to even. -/
def roundHalfEven (x : ℚ) : ℤ :=
  let f := ⌊x⌋
  let r := x - f
  if r < 1/2 then f
  else if 1/2 < r then f + 1
  else if Even f then f else f + 1

/-- `round(x, 2)` on an exact rational. -/
def roundTo2 (x : ℚ) : ℚ := (roundHalfEven (x * 100) : ℚ) / 100

/-- `calculate_disk_usage_percent` from `filter_plugins/linux_utils.py`,
floats modelled as exact rationals: an argument that `float(...)` cannot
convert is `none`, and `Except.error` models the `AnsibleFilterError`
raise. -/
def calculate_disk_usage_percent (used total : Option ℚ) : Except String ℚ :=
  match used, total with
  | some u, some t =>
      if t = 0 then Except.ok 0
      else Except.ok (roundTo2 (u / t * 100))
  | _, _ => Except.error "calculate_disk_usage_percent: Invalid input"

end LinuxUtils

namespace DeployConfig

/-- Helper: step 7 issues a deletion only when a backup file was recorded and
`backup` is falsy; under the run's invariant that a backup file implies
`backup = true`, no deletion is appended. -/
theorem stepCleanup_no_delete (backup : Bool) (bf : Option String)
    (source dest : String) (res : DeployResult) (ops : List RemoteOp)
    (hbf : bf.isSome → backup = true)
    (hops : (ops.all fun op => !op.isDelete) = true) :
    ((stepCleanup backup bf source dest res ops).2.all fun op => !op.isDelete) = true := by
  cases bf with
  | none => simpa [stepCleanup] using hops
  | some b =>
      have hb : backup = true := hbf (by simp)
      simpa [stepCleanup, hb] using hops

/-- Helper: the validation step appends only `command` and rollback `copy`
operations; no deletion is appended. -/
theorem stepValidate_no_delete (t : Task) (source dest : String) (bf : Option String)
    (o : Oracle) (res : DeployResult) (ops : List RemoteOp)
    (hbf : bf.isSome → t.backup = true)
    (hops : (ops.all fun op => !op.isDelete) = true) :
    ((stepValidate t source dest bf o res ops).2.all fun op => !op.isDelete) = true := by
  unfold stepValidate
  split
  · split
    · cases bf <;> simp_all [RemoteOp.isDelete]
    · exact stepCleanup_no_delete _ _ _ _ _ _ hbf (by simp_all [RemoteOp.isDelete])
  · exact stepCleanup_no_delete _ _ _ _ _ _ hbf hops

/-- Helper: the copy step appends only the deploy `copy` operation;
no deletion is appended. -/
theorem stepCopy_no_delete (t : Task) (source dest chk : String) (bf : Option String)
    (o : Oracle) (res : DeployResult) (ops : List RemoteOp)
    (hbf : bf.isSome → t.backup = true)
    (hops : (ops.all fun op => !op.isDelete) = true) :
    ((stepCopy t source dest chk bf o res ops).2.all fun op => !op.isDelete) = true := by
  unfold stepCopy
  split
  · simp_all [RemoteOp.isDelete]
  · exact stepValidate_no_delete _ _ _ _ _ _ _ hbf (by simp_all [RemoteOp.isDelete])

/-- C2: in the sequence of remote operations issued by a single run, the
backup-deletion operation (`file` with `state=absent`) is in fact never
issued at all — the plugin only creates a backup when `backup` is truthy,
and only deletes it when `backup` is falsy, so the deletion branch is
unreachable.  A fortiori, no deletion is ever issued before the validation
step has completed successfully, and any deletion (there is none) would come
only after a zero-exit validation. -/
theorem claim_C2_backup_never_deleted_before_validation
    (hash : List Nat → String) (localRead : String → List Nat)
    (t : Task) (o : Oracle) :
    ((run hash localRead t o).2.all fun op => !op.isDelete) = true := by
  unfold run
  cases t.src with
  | none => simp
  | some s =>
    cases t.dest with
    | none => simp
    | some d =>
      cases o.findNeedle with
      | none => simp
      | some p =>
        by_cases hbe : (t.backup && o.statRes.fileExists) = true
        · simp only [hbe, if_true]
          by_cases hbr : o.backupRes.failed
          · simp [hbr, RemoteOp.isDelete]
          · simp only [hbr, if_false]
            exact stepCopy_no_delete _ _ _ _ _ _ _ _
              (fun _ => by exact (Bool.and_eq_true _ _).mp hbe |>.1)
              (by simp [RemoteOp.isDelete])
        · simp only [hbe, if_false]
          exact stepCopy_no_delete _ _ _ _ _ _ _ _
            (fun h => by simp at h)
            (by simp [RemoteOp.isDelete])

end DeployConfig

namespace DeployConfig

/-- C4: when `src` or `dest` is absent, the run returns `failed=true` with a
descriptive message (`"src is required"` / `"dest is required"`) and issues no
remote operation at all. -/
theorem claim_C4_missing_args_no_remote_ops
    (hash : List Nat → String) (localRead : String → List Nat)
    (t : Task) (o : Oracle) (h : t.src = none ∨ t.dest = none) :
    (run hash localRead t o).1.failed = true ∧
    ((run hash localRead t o).1.msg = some "src is required" ∨
     (run hash localRead t o).1.msg = some "dest is required") ∧
    (run hash localRead t o).2 = [] := by
  rcases h with h | h
  · simp [run, h]
  · cases hs : t.src <;> simp [run, hs, h]

/-- Witness for C4 at a concrete request with `src` absent. -/
theorem claim_C4_missing_args_no_remote_ops_witness :
    ({ dest := some "/etc/app.conf" } : Task).src = none ∧
    ((run (fun _ => "h") (fun _ => []) { dest := some "/etc/app.conf" } {}).1.failed = true ∧
     ((run (fun _ => "h") (fun _ => []) { dest := some "/etc/app.conf" } {}).1.msg = some "src is required" ∨
      (run (fun _ => "h") (fun _ => []) { dest := some "/etc/app.conf" } {}).1.msg = some "dest is required") ∧
     (run (fun _ => "h") (fun _ => []) { dest := some "/etc/app.conf" } {}).2 = []) :=
  ⟨rfl, claim_C4_missing_args_no_remote_ops (fun _ => "h") (fun _ => [])
    { dest := some "/etc/app.conf" } {} (Or.inl rfl)⟩

/-- C3: when a backup is requested, the destination exists and the backup
copy fails, the run returns `failed=true` with the `Backup failed:` message,
the trace is exactly the `stat` call and the failed backup copy, and in
particular the deploy copy of the source to the destination is never
invoked. -/
theorem claim_C3_backup_failure_aborts_before_overwrite
    (hash : List Nat → String) (localRead : String → List Nat)
    (t : Task) (o : Oracle) (s d p : String)
    (hs : t.src = some s) (hd : t.dest = some d) (hp : o.findNeedle = some p)
    (hb : t.backup = true) (hex : o.statRes.fileExists = true)
    (hbf : o.backupRes.failed = true) :
    (run hash localRead t o).1.failed = true ∧
    (run hash localRead t o).1.msg = some ("Backup failed: " ++ pyShow o.backupRes.msg) ∧
    (run hash localRead t o).2 =
      [RemoteOp.stat d, RemoteOp.copy d (backupPath d) true none none none] ∧
    ((run hash localRead t o).2.all fun op => !op.isLocalCopy) = true := by
  simp [run, hs, hd, hp, hb, hex, hbf, RemoteOp.isLocalCopy]

/-- Witness for C3 at a concrete request whose backup copy fails. -/
theorem claim_C3_backup_failure_aborts_before_overwrite_witness :
    (run (fun _ => "h") (fun _ => [])
       { src := some "app.conf", dest := some "/etc/app.conf" }
       { findNeedle := some "/files/app.conf", statRes := { fileExists := true },
         backupRes := { failed := true, msg := some "disk full" } }).1.failed = true ∧
    (run (fun _ => "h") (fun _ => [])
       { src := some "app.conf", dest := some "/etc/app.conf" }
       { findNeedle := some "/files/app.conf", statRes := { fileExists := true },
         backupRes := { failed := true, msg := some "disk full" } }).1.msg =
      some ("Backup failed: " ++ pyShow (some "disk full")) ∧
    (run (fun _ => "h") (fun _ => [])
       { src := some "app.conf", dest := some "/etc/app.conf" }
       { findNeedle := some "/files/app.conf", statRes := { fileExists := true },
         backupRes := { failed := true, msg := some "disk full" } }).2 =
      [RemoteOp.stat "/etc/app.conf",
       RemoteOp.copy "/etc/app.conf" (backupPath "/etc/app.conf") true none none none] ∧
    ((run (fun _ => "h") (fun _ => [])
       { src := some "app.conf", dest := some "/etc/app.conf" }
       { findNeedle := some "/files/app.conf", statRes := { fileExists := true },
         backupRes := { failed := true, msg := some "disk full" } }).2.all
       fun op => !op.isLocalCopy) = true :=
  claim_C3_backup_failure_aborts_before_overwrite (fun _ => "h") (fun _ => [])
    { src := some "app.conf", dest := some "/etc/app.conf" }
    { findNeedle := some "/files/app.conf", statRes := { fileExists := true },
      backupRes := { failed := true, msg := some "disk full" } }
    "app.conf" "/etc/app.conf" "/files/app.conf" rfl rfl rfl rfl rfl rfl

end DeployConfig

namespace DeployConfig

/-- C8: when a backup is requested but the destination does not exist, no
backup copy (indeed no `remote_src` copy at all) is issued, no backup file is
recorded, the workflow proceeds directly from the `stat` call to the deploy
copy of the source to the destination, and the nonexistence is not treated as
an error: when the copy succeeds and no validation command is supplied the
result is not failed. -/
theorem claim_C8_no_dest_skips_backup
    (hash : List Nat → String) (localRead : String → List Nat)
    (t : Task) (o : Oracle) (s d p : String)
    (hs : t.src = some s) (hd : t.dest = some d) (hp : o.findNeedle = some p)
    (hb : t.backup = true) (hex : o.statRes.fileExists = false) :
    ((run hash localRead t o).2.all fun op => !op.isRemoteSrcCopy) = true ∧
    (run hash localRead t o).2.take 2 =
      [RemoteOp.stat d, RemoteOp.copy p d false (effOwner t) (effGroup t) (effMode t)] ∧
    (run hash localRead t o).1.backup_file = none ∧
    (o.copyRes.failed = false → optTruthy t.validate = false →
      (run hash localRead t o).1.failed = false) := by
  have hrun : run hash localRead t o =
      stepCopy t p d (hash (localRead p)) none o {} [RemoteOp.stat d] := by
    simp [run, hs, hd, hp, hb, hex]
  rw [hrun]
  unfold stepCopy
  by_cases hcf : o.copyRes.failed
  · simp [hcf, RemoteOp.isRemoteSrcCopy]
  · simp only [hcf, if_neg, Bool.false_eq_true, not_false_eq_true, if_false]
    unfold stepValidate
    by_cases hv : optTruthy t.validate
    · simp only [hv, if_true]
      by_cases hrc : o.cmdRes.rc.getD 0 ≠ 0
      · simp [hrc, RemoteOp.isRemoteSrcCopy, hv]
      · simp [hrc, stepCleanup, RemoteOp.isRemoteSrcCopy, hv]
    · simp [hv, stepCleanup, RemoteOp.isRemoteSrcCopy]

/-- Witness for C8 at a concrete request with a nonexistent destination. -/
theorem claim_C8_no_dest_skips_backup_witness :
    ((run (fun _ => "h") (fun _ => [])
        { src := some "app.conf", dest := some "/etc/app.conf" }
        { findNeedle := some "/files/app.conf" }).2.all
      fun op => !op.isRemoteSrcCopy) = true ∧
    (run (fun _ => "h") (fun _ => [])
        { src := some "app.conf", dest := some "/etc/app.conf" }
        { findNeedle := some "/files/app.conf" }).2.take 2 =
      [RemoteOp.stat "/etc/app.conf",
       RemoteOp.copy "/files/app.conf" "/etc/app.conf" false
         (effOwner { src := some "app.conf", dest := some "/etc/app.conf" })
         (effGroup { src := some "app.conf", dest := some "/etc/app.conf" })
         (effMode { src := some "app.conf", dest := some "/etc/app.conf" })] ∧
    (run (fun _ => "h") (fun _ => [])
        { src := some "app.conf", dest := some "/etc/app.conf" }
        { findNeedle := some "/files/app.conf" }).1.backup_file = none ∧
    (({} : Oracle).copyRes.failed = false →
      optTruthy ({ src := some "app.conf", dest := some "/etc/app.conf" } : Task).validate = false →
      (run (fun _ => "h") (fun _ => [])
        { src := some "app.conf", dest := some "/etc/app.conf" }
        { findNeedle := some "/files/app.conf" }).1.failed = false) :=
  claim_C8_no_dest_skips_backup (fun _ => "h") (fun _ => [])
    { src := some "app.conf", dest := some "/etc/app.conf" }
    { findNeedle := some "/files/app.conf" }
    "app.conf" "/etc/app.conf" "/files/app.conf" rfl rfl rfl rfl rfl

end DeployConfig

namespace DeployConfig

/-- Helper: the backup path differs from the destination path
(it is 7 characters longer). -/
theorem backupPath_ne (d : String) : backupPath d ≠ d := by
  intro h
  have h' := congrArg String.length h
  rw [backupPath, String.length_append] at h'
  have h7 : (".backup" : String).length = 7 := rfl
  omega

/-- C1: when a validation command is supplied and its remote execution
returns a non-zero exit code, the run returns `failed=true`, `msg` is
`"Validation failed: "` followed by the captured standard error (so it
contains that text) or by the fallback `"Unknown error"` when none was
captured, `validation_output` is the captured standard output (empty string
when none was captured), and the restore copy from the backup path to the
destination is issued exactly once when a backup was created earlier in the
run, and never otherwise. -/
theorem claim_C1_validation_failure_rollback
    (hash : List Nat → String) (localRead : String → List Nat)
    (t : Task) (o : Oracle) (s d p : String)
    (hs : t.src = some s) (hd : t.dest = some d) (hp : o.findNeedle = some p)
    (hb : (t.backup && o.statRes.fileExists) = true → o.backupRes.failed = false)
    (hc : o.copyRes.failed = false)
    (hv : optTruthy t.validate = true)
    (hrc : o.cmdRes.rc.getD 0 ≠ 0) :
    (run hash localRead t o).1.failed = true ∧
    (run hash localRead t o).1.msg =
      some ("Validation failed: " ++ o.cmdRes.stderr.getD "Unknown error") ∧
    (run hash localRead t o).1.validation_output = some (o.cmdRes.stdout.getD "") ∧
    ((t.backup && o.statRes.fileExists) = true →
      (run hash localRead t o).2.count
        (RemoteOp.copy (backupPath d) d true none none none) = 1) ∧
    ((t.backup && o.statRes.fileExists) = false →
      (run hash localRead t o).2.count
        (RemoteOp.copy (backupPath d) d true none none none) = 0) := by
  by_cases hbe : (t.backup && o.statRes.fileExists) = true
  · have hbr := hb hbe
    have hrun : run hash localRead t o =
        stepCopy t p d (hash (localRead p)) (some (backupPath d)) o
          { backup_file := some (backupPath d) }
          [RemoteOp.stat d, RemoteOp.copy d (backupPath d) true none none none] := by
      simp [run, hs, hd, hp, hbe, hbr]
    rw [hrun]
    unfold stepCopy stepValidate
    simp [hc, hv, hrc, hbe, stepCleanup, List.count_cons, List.count_append,
          backupPath_ne d]
  · have hbe' : (t.backup && o.statRes.fileExists) = false := by
      cases h : (t.backup && o.statRes.fileExists) <;> simp_all
    have hrun : run hash localRead t o =
        stepCopy t p d (hash (localRead p)) none o {} [RemoteOp.stat d] := by
      simp [run, hs, hd, hp, hbe']
    rw [hrun]
    unfold stepCopy stepValidate
    simp [hc, hv, hrc, hbe', stepCleanup, List.count_cons, List.count_append,
          backupPath_ne d]

end DeployConfig

namespace DeployConfig

/-- Sample abstract digest used by the concrete witnesses. -/
def sampleHash : List Nat → String := fun _ => "cafebabe"

/-- Sample control-node file contents used by the concrete witnesses. -/
def sampleRead : String → List Nat := fun _ => [104, 105]

/-- Concrete deploy request with a validation command, used by witnesses. -/
def tVal : Task :=
  { src := some "nginx.conf", dest := some "/etc/nginx/nginx.conf",
    validate := some "nginx -t -c %s" }

/-- Concrete oracle whose validation command exits 1, used by witnesses. -/
def oFail : Oracle :=
  { findNeedle := some "/files/nginx.conf", statRes := { fileExists := true },
    cmdRes := { rc := some 1, stdout := some "checking", stderr := some "syntax error" } }

/-- Concrete oracle whose validation command exits 0, used by witnesses. -/
def oPass : Oracle :=
  { findNeedle := some "/files/nginx.conf", statRes := { fileExists := true },
    copyRes := { changed := true },
    cmdRes := { rc := some 0, stdout := some "ok", stderr := some "" } }

/-- Witness for C1 at a concrete request whose validation command exits 1
with stderr `"syntax error"`. -/
theorem claim_C1_validation_failure_rollback_witness :
    tVal.src = some "nginx.conf" ∧ tVal.dest = some "/etc/nginx/nginx.conf" ∧
    oFail.findNeedle = some "/files/nginx.conf" ∧
    oFail.copyRes.failed = false ∧ optTruthy tVal.validate = true ∧
    oFail.cmdRes.rc.getD 0 ≠ 0 ∧
    ((run sampleHash sampleRead tVal oFail).1.failed = true ∧
     (run sampleHash sampleRead tVal oFail).1.msg =
       some ("Validation failed: " ++ oFail.cmdRes.stderr.getD "Unknown error") ∧
     (run sampleHash sampleRead tVal oFail).1.validation_output =
       some (oFail.cmdRes.stdout.getD "") ∧
     ((tVal.backup && oFail.statRes.fileExists) = true →
       (run sampleHash sampleRead tVal oFail).2.count
         (RemoteOp.copy (backupPath "/etc/nginx/nginx.conf") "/etc/nginx/nginx.conf"
           true none none none) = 1) ∧
     ((tVal.backup && oFail.statRes.fileExists) = false →
       (run sampleHash sampleRead tVal oFail).2.count
         (RemoteOp.copy (backupPath "/etc/nginx/nginx.conf") "/etc/nginx/nginx.conf"
           true none none none) = 0)) :=
  ⟨rfl, rfl, rfl, rfl, by decide, by decide,
   claim_C1_validation_failure_rollback sampleHash sampleRead tVal oFail
     "nginx.conf" "/etc/nginx/nginx.conf" "/files/nginx.conf"
     rfl rfl rfl (fun _ => rfl) rfl (by decide) (by decide)⟩

/-- C5: when a validation command is supplied and its remote execution
returns exit code zero, the run's result is not failed, `validation` is
`"passed"` and `validation_output` is the captured standard output.  For the
backup clause: the plugin creates a backup only when `backup` is truthy, so
with `backup=false` no backup artifact exists after the run (there is nothing
to delete — the deletion branch of step 7 is unreachable), and with
`backup=true` the created backup is retained; in particular no deletion
operation is ever issued. -/
theorem claim_C5_validation_pass_result
    (hash : List Nat → String) (localRead : String → List Nat)
    (t : Task) (o : Oracle) (s d p : String)
    (hs : t.src = some s) (hd : t.dest = some d) (hp : o.findNeedle = some p)
    (hb : (t.backup && o.statRes.fileExists) = true → o.backupRes.failed = false)
    (hc : o.copyRes.failed = false)
    (hv : optTruthy t.validate = true)
    (hrc : o.cmdRes.rc.getD 0 = 0) :
    (run hash localRead t o).1.failed = false ∧
    (run hash localRead t o).1.validation = some "passed" ∧
    (run hash localRead t o).1.validation_output = some (o.cmdRes.stdout.getD "") ∧
    (run hash localRead t o).1.backup_file =
      (if t.backup && o.statRes.fileExists then some (backupPath d) else none) ∧
    ((run hash localRead t o).2.all fun op => !op.isDelete) = true := by
  by_cases hbe : (t.backup && o.statRes.fileExists) = true
  · have hbr := hb hbe
    have hbk : t.backup = true := ((Bool.and_eq_true _ _).mp hbe).1
    have hex : o.statRes.fileExists = true := ((Bool.and_eq_true _ _).mp hbe).2
    have hrun : run hash localRead t o =
        stepCopy t p d (hash (localRead p)) (some (backupPath d)) o
          { backup_file := some (backupPath d) }
          [RemoteOp.stat d, RemoteOp.copy d (backupPath d) true none none none] := by
      simp [run, hs, hd, hp, hbe, hbr]
    rw [hrun]
    unfold stepCopy stepValidate
    simp [hc, hv, hrc, hbe, hbk, hex, stepCleanup, RemoteOp.isDelete]
  · have hbe' : (t.backup && o.statRes.fileExists) = false := by
      cases h : (t.backup && o.statRes.fileExists) <;> simp_all
    have hrun : run hash localRead t o =
        stepCopy t p d (hash (localRead p)) none o {} [RemoteOp.stat d] := by
      simp [run, hs, hd, hp, hbe']
    rw [hrun]
    unfold stepCopy stepValidate
    simp [hc, hv, hrc, hbe', stepCleanup, RemoteOp.isDelete]

/-- Witness for C5 at a concrete request whose validation command exits 0. -/
theorem claim_C5_validation_pass_result_witness :
    tVal.src = some "nginx.conf" ∧ tVal.dest = some "/etc/nginx/nginx.conf" ∧
    oPass.findNeedle = some "/files/nginx.conf" ∧
    oPass.copyRes.failed = false ∧ optTruthy tVal.validate = true ∧
    oPass.cmdRes.rc.getD 0 = 0 ∧
    ((run sampleHash sampleRead tVal oPass).1.failed = false ∧
     (run sampleHash sampleRead tVal oPass).1.validation = some "passed" ∧
     (run sampleHash sampleRead tVal oPass).1.validation_output =
       some (oPass.cmdRes.stdout.getD "") ∧
     (run sampleHash sampleRead tVal oPass).1.backup_file =
       (if tVal.backup && oPass.statRes.fileExists
        then some (backupPath "/etc/nginx/nginx.conf") else none) ∧
     ((run sampleHash sampleRead tVal oPass).2.all fun op => !op.isDelete) = true) :=
  ⟨rfl, rfl, rfl, rfl, by decide, by decide,
   claim_C5_validation_pass_result sampleHash sampleRead tVal oPass
     "nginx.conf" "/etc/nginx/nginx.conf" "/files/nginx.conf"
     rfl rfl rfl (fun _ => rfl) rfl (by decide) (by decide)⟩

end DeployConfig

namespace DeployConfig

/-- Helper: any `command` operation in the trace produced from `stepCopy`
(when the prefix trace contains no command) is the substituted validation
template, the deploy copy did not fail, and the command sits immediately
after the deploy copy in the trace. -/
theorem stepCopy_command_shape (t : Task) (p d chk : String) (bf : Option String)
    (o : Oracle) (res : DeployResult) (ops0 : List RemoteOp) (v c : String)
    (hv : t.validate = some v)
    (hnc : (ops0.all fun op => !op.isCommand) = true)
    (hc : RemoteOp.command c ∈ (stepCopy t p d chk bf o res ops0).2) :
    c = replacePercentS v d ∧
    o.copyRes.failed = false ∧
    ∃ pre post p' ow gp md,
      (stepCopy t p d chk bf o res ops0).2 =
        pre ++ RemoteOp.copy p' d false ow gp md :: RemoteOp.command c :: post := by
  have hnotin : RemoteOp.command c ∉ ops0 := by
    intro hm
    have hx := List.all_eq_true.mp hnc _ hm
    simp [RemoteOp.isCommand] at hx
  by_cases hcf : o.copyRes.failed
  · have htr : (stepCopy t p d chk bf o res ops0).2 =
        ops0 ++ [RemoteOp.copy p d false (effOwner t) (effGroup t) (effMode t)] := by
      simp [stepCopy, hcf]
    rw [htr] at hc
    simp [List.mem_append, hnotin] at hc
  · have hcf' : o.copyRes.failed = false := by
      revert hcf; cases o.copyRes.failed <;> simp
    by_cases hvt : optTruthy t.validate
    · have hvt2 : optTruthy (some v) = true := by rw [← hv]; exact hvt
      by_cases hrc : o.cmdRes.rc.getD 0 = 0
      · cases bf with
        | none =>
            have htr : (stepCopy t p d chk none o res ops0).2 =
                ops0 ++ [RemoteOp.copy p d false (effOwner t) (effGroup t) (effMode t),
                  RemoteOp.command (replacePercentS v d)] := by
              simp [stepCopy, stepValidate, stepCleanup, hcf', hvt, hvt2, hrc, hv]
            rw [htr] at hc ⊢
            simp [List.mem_append, hnotin] at hc
            exact ⟨hc, hcf',
              ops0, [], p, effOwner t, effGroup t, effMode t, by simp [hc]⟩
        | some b =>
            by_cases hbk : t.backup
            · have htr : (stepCopy t p d chk (some b) o res ops0).2 =
                  ops0 ++ [RemoteOp.copy p d false (effOwner t) (effGroup t) (effMode t),
                    RemoteOp.command (replacePercentS v d)] := by
                simp [stepCopy, stepValidate, stepCleanup, hcf', hvt, hvt2, hrc, hbk, hv]
              rw [htr] at hc ⊢
              simp [List.mem_append, hnotin] at hc
              exact ⟨hc, hcf',
                ops0, [], p, effOwner t, effGroup t, effMode t, by simp [hc]⟩
            · have hbk' : t.backup = false := by
                revert hbk; cases t.backup <;> simp
              have htr : (stepCopy t p d chk (some b) o res ops0).2 =
                  ops0 ++ [RemoteOp.copy p d false (effOwner t) (effGroup t) (effMode t),
                    RemoteOp.command (replacePercentS v d), RemoteOp.fileAbsent b] := by
                simp [stepCopy, stepValidate, stepCleanup, hcf', hvt, hvt2, hrc, hbk', hv]
              rw [htr] at hc ⊢
              simp [List.mem_append, hnotin] at hc
              exact ⟨hc, hcf',
                ops0, [RemoteOp.fileAbsent b], p,
                effOwner t, effGroup t, effMode t, by simp [hc]⟩
      · cases bf with
        | none =>
            have htr : (stepCopy t p d chk none o res ops0).2 =
                ops0 ++ [RemoteOp.copy p d false (effOwner t) (effGroup t) (effMode t),
                  RemoteOp.command (replacePercentS v d)] := by
              simp [stepCopy, stepValidate, hcf', hvt, hvt2, hrc, hv]
            rw [htr] at hc ⊢
            simp [List.mem_append, hnotin] at hc
            exact ⟨hc, hcf',
              ops0, [], p, effOwner t, effGroup t, effMode t, by simp [hc]⟩
        | some b =>
            have htr : (stepCopy t p d chk (some b) o res ops0).2 =
                ops0 ++ [RemoteOp.copy p d false (effOwner t) (effGroup t) (effMode t),
                  RemoteOp.command (replacePercentS v d),
                  RemoteOp.copy b d true none none none] := by
              simp [stepCopy, stepValidate, hcf', hvt, hvt2, hrc, hv]
            rw [htr] at hc ⊢
            simp [List.mem_append, hnotin] at hc
            exact ⟨hc, hcf',
              ops0, [RemoteOp.copy b d true none none none], p,
              effOwner t, effGroup t, effMode t, by simp [hc]⟩
    · have hvt' : optTruthy t.validate = false := by
        revert hvt; cases optTruthy t.validate <;> simp
      cases bf with
      | none =>
          have htr : (stepCopy t p d chk none o res ops0).2 =
              ops0 ++ [RemoteOp.copy p d false (effOwner t) (effGroup t) (effMode t)] := by
            simp [stepCopy, stepValidate, stepCleanup, hcf', hvt']
          rw [htr] at hc
          simp [List.mem_append, hnotin] at hc
      | some b =>
          by_cases hbk : t.backup
          · have htr : (stepCopy t p d chk (some b) o res ops0).2 =
                ops0 ++ [RemoteOp.copy p d false (effOwner t) (effGroup t) (effMode t)] := by
              simp [stepCopy, stepValidate, stepCleanup, hcf', hvt', hbk]
            rw [htr] at hc
            simp [List.mem_append, hnotin] at hc
          · have hbk' : t.backup = false := by
              revert hbk; cases t.backup <;> simp
            have htr : (stepCopy t p d chk (some b) o res ops0).2 =
                ops0 ++ [RemoteOp.copy p d false (effOwner t) (effGroup t) (effMode t),
                  RemoteOp.fileAbsent b] := by
              simp [stepCopy, stepValidate, stepCleanup, hcf', hvt', hbk']
            rw [htr] at hc
            simp [List.mem_append, hnotin] at hc

/-- C7: for a run whose task carries a validation template, every `command`
operation issued is the template with every occurrence of the literal token
`%s` replaced by the destination path, the deploy copy did not report
failure, and the command appears in the trace immediately after the deploy
copy of the source to the destination. -/
theorem claim_C7_validation_command_substituted_after_copy
    (hash : List Nat → String) (localRead : String → List Nat)
    (t : Task) (o : Oracle) (d v c : String)
    (hd : t.dest = some d) (hv : t.validate = some v)
    (hc : RemoteOp.command c ∈ (run hash localRead t o).2) :
    c = replacePercentS v d ∧
    o.copyRes.failed = false ∧
    ∃ pre post p ow gp md,
      (run hash localRead t o).2 =
        pre ++ RemoteOp.copy p d false ow gp md :: RemoteOp.command c :: post := by
  cases hsv : t.src with
  | none =>
      have h0 : (run hash localRead t o).2 = [] := by simp [run, hsv]
      rw [h0] at hc; simp at hc
  | some s =>
    cases hfv : o.findNeedle with
    | none =>
        have h0 : (run hash localRead t o).2 = [] := by
          simp [run, hsv, hd, hfv]
        rw [h0] at hc; simp at hc
    | some p =>
      by_cases hbe : (t.backup && o.statRes.fileExists) = true
      · by_cases hbr : o.backupRes.failed
        · have h0 : (run hash localRead t o).2 =
              [RemoteOp.stat d, RemoteOp.copy d (backupPath d) true none none none] := by
            simp [run, hsv, hd, hfv, hbe, hbr]
          rw [h0] at hc; simp at hc
        · have hrun : run hash localRead t o =
              stepCopy t p d (hash (localRead p)) (some (backupPath d)) o
                { backup_file := some (backupPath d) }
                [RemoteOp.stat d, RemoteOp.copy d (backupPath d) true none none none] := by
            simp [run, hsv, hd, hfv, hbe, hbr]
          rw [hrun] at hc ⊢
          exact stepCopy_command_shape t p d _ _ o _ _ v c hv
            (by simp [RemoteOp.isCommand]) hc
      · have hbe' : (t.backup && o.statRes.fileExists) = false := by
          cases h : (t.backup && o.statRes.fileExists) <;> simp_all
        have hrun : run hash localRead t o =
            stepCopy t p d (hash (localRead p)) none o {} [RemoteOp.stat d] := by
          simp [run, hsv, hd, hfv, hbe']
        rw [hrun] at hc ⊢
        exact stepCopy_command_shape t p d _ _ o _ _ v c hv
          (by simp [RemoteOp.isCommand]) hc

/-- Witness for C7 at a concrete request: the command actually issued for the
template `nginx -t -c %s` and destination `/etc/nginx/nginx.conf`. -/
theorem claim_C7_validation_command_substituted_after_copy_witness :
    tVal.dest = some "/etc/nginx/nginx.conf" ∧
    tVal.validate = some "nginx -t -c %s" ∧
    RemoteOp.command "nginx -t -c /etc/nginx/nginx.conf" ∈
      (run sampleHash sampleRead tVal oPass).2 ∧
    ("nginx -t -c /etc/nginx/nginx.conf" =
       replacePercentS "nginx -t -c %s" "/etc/nginx/nginx.conf" ∧
     oPass.copyRes.failed = false ∧
     ∃ pre post p ow gp md,
       (run sampleHash sampleRead tVal oPass).2 =
         pre ++ RemoteOp.copy p "/etc/nginx/nginx.conf" false ow gp md ::
           RemoteOp.command "nginx -t -c /etc/nginx/nginx.conf" :: post) :=
  ⟨rfl, rfl, by decide,
   claim_C7_validation_command_substituted_after_copy sampleHash sampleRead tVal oPass
     "/etc/nginx/nginx.conf" "nginx -t -c %s" "nginx -t -c /etc/nginx/nginx.conf"
     rfl rfl (by decide)⟩

end DeployConfig

namespace DeployConfig

/-- Helper: when `stepCopy` does not report failure, the result's checksum is
the source checksum computed before the copy, and replaying the trace on any
remote filesystem leaves the source bytes at the destination (the operations
after the deploy copy never modify the destination when a recorded backup
implies `backup = true`). -/
theorem stepCopy_success_roundtrip (t : Task) (p d chk : String) (bf : Option String)
    (o : Oracle) (res : DeployResult) (ops0 : List RemoteOp)
    (localRead : String → List Nat) (fs : String → Option (List Nat))
    (hbk : bf.isSome → t.backup = true)
    (hok : (stepCopy t p d chk bf o res ops0).1.failed = false) :
    (stepCopy t p d chk bf o res ops0).1.checksum = some chk ∧
    applyOps localRead fs (stepCopy t p d chk bf o res ops0).2 d =
      some (localRead p) := by
  by_cases hcf : o.copyRes.failed
  · have hfail : (stepCopy t p d chk bf o res ops0).1.failed = true := by
      simp [stepCopy, hcf]
    rw [hfail] at hok; cases hok
  · have hcf' : o.copyRes.failed = false := by
      revert hcf; cases o.copyRes.failed <;> simp
    by_cases hvt : optTruthy t.validate
    · by_cases hrc : o.cmdRes.rc.getD 0 = 0
      · cases bf with
        | none =>
            constructor
            · simp [stepCopy, stepValidate, stepCleanup, hcf', hvt, hrc]
            · have htr : (stepCopy t p d chk none o res ops0).2 =
                  ops0 ++ [RemoteOp.copy p d false (effOwner t) (effGroup t) (effMode t),
                    RemoteOp.command (replacePercentS (t.validate.getD "") d)] := by
                simp [stepCopy, stepValidate, stepCleanup, hcf', hvt, hrc]
              rw [htr]
              simp [applyOps, applyOp, List.foldl_append]
        | some b =>
            have hbk' : t.backup = true := hbk (by simp)
            constructor
            · simp [stepCopy, stepValidate, stepCleanup, hcf', hvt, hrc, hbk']
            · have htr : (stepCopy t p d chk (some b) o res ops0).2 =
                  ops0 ++ [RemoteOp.copy p d false (effOwner t) (effGroup t) (effMode t),
                    RemoteOp.command (replacePercentS (t.validate.getD "") d)] := by
                simp [stepCopy, stepValidate, stepCleanup, hcf', hvt, hrc, hbk']
              rw [htr]
              simp [applyOps, applyOp, List.foldl_append]
      · have hfail : (stepCopy t p d chk bf o res ops0).1.failed = true := by
          simp [stepCopy, stepValidate, hcf', hvt, hrc]
        rw [hfail] at hok; cases hok
    · have hvt' : optTruthy t.validate = false := by
        revert hvt; cases optTruthy t.validate <;> simp
      cases bf with
      | none =>
          constructor
          · simp [stepCopy, stepValidate, stepCleanup, hcf', hvt']
          · have htr : (stepCopy t p d chk none o res ops0).2 =
                ops0 ++ [RemoteOp.copy p d false (effOwner t) (effGroup t) (effMode t)] := by
              simp [stepCopy, stepValidate, stepCleanup, hcf', hvt']
            rw [htr]
            simp [applyOps, applyOp, List.foldl_append]
      | some b =>
          have hbk' : t.backup = true := hbk (by simp)
          constructor
          · simp [stepCopy, stepValidate, stepCleanup, hcf', hvt', hbk']
          · have htr : (stepCopy t p d chk (some b) o res ops0).2 =
                ops0 ++ [RemoteOp.copy p d false (effOwner t) (effGroup t) (effMode t)] := by
              simp [stepCopy, stepValidate, stepCleanup, hcf', hvt', hbk']
            rw [htr]
            simp [applyOps, applyOp, List.foldl_append]

/-- C6: for every run that does not report failure, the checksum in the
result is the digest of the source file's bytes computed before the copy,
and replaying the issued remote operations (under the §6 contract for the
copy/command/delete primitives) on any initial remote filesystem leaves the
destination holding exactly the source bytes — so reading back the
destination yields bytes whose digest equals the reported checksum. -/
theorem claim_C6_roundtrip_checksum
    (hash : List Nat → String) (localRead : String → List Nat)
    (t : Task) (o : Oracle) (d p : String)
    (hd : t.dest = some d) (hp : o.findNeedle = some p)
    (hok : (run hash localRead t o).1.failed = false)
    (fs : String → Option (List Nat)) :
    (run hash localRead t o).1.checksum = some (hash (localRead p)) ∧
    applyOps localRead fs (run hash localRead t o).2 d = some (localRead p) := by
  cases hsv : t.src with
  | none =>
      have hfail : (run hash localRead t o).1.failed = true := by simp [run, hsv]
      rw [hfail] at hok; cases hok
  | some s =>
    by_cases hbe : (t.backup && o.statRes.fileExists) = true
    · by_cases hbr : o.backupRes.failed
      · have hfail : (run hash localRead t o).1.failed = true := by
          simp [run, hsv, hd, hp, hbe, hbr]
        rw [hfail] at hok; cases hok
      · have hbr' : o.backupRes.failed = false := by
          revert hbr; cases o.backupRes.failed <;> simp
        have hbk : t.backup = true := ((Bool.and_eq_true _ _).mp hbe).1
        have hrun : run hash localRead t o =
            stepCopy t p d (hash (localRead p)) (some (backupPath d)) o
              { backup_file := some (backupPath d) }
              [RemoteOp.stat d, RemoteOp.copy d (backupPath d) true none none none] := by
          simp [run, hsv, hd, hp, hbe, hbr']
        rw [hrun] at hok ⊢
        exact stepCopy_success_roundtrip t p d _ _ o _ _ localRead fs
          (fun _ => hbk) hok
    · have hbe' : (t.backup && o.statRes.fileExists) = false := by
        cases h : (t.backup && o.statRes.fileExists) <;> simp_all
      have hrun : run hash localRead t o =
          stepCopy t p d (hash (localRead p)) none o {} [RemoteOp.stat d] := by
        simp [run, hsv, hd, hp, hbe']
      rw [hrun] at hok ⊢
      exact stepCopy_success_roundtrip t p d _ _ o _ _ localRead fs
        (fun h => by simp at h) hok

/-- Witness for C6 at a concrete successful run. -/
theorem claim_C6_roundtrip_checksum_witness :
    tVal.dest = some "/etc/nginx/nginx.conf" ∧
    oPass.findNeedle = some "/files/nginx.conf" ∧
    (run sampleHash sampleRead tVal oPass).1.failed = false ∧
    ((run sampleHash sampleRead tVal oPass).1.checksum =
       some (sampleHash (sampleRead "/files/nginx.conf")) ∧
     applyOps sampleRead (fun _ => none) (run sampleHash sampleRead tVal oPass).2
       "/etc/nginx/nginx.conf" = some (sampleRead "/files/nginx.conf")) :=
  ⟨rfl, rfl, by decide,
   claim_C6_roundtrip_checksum sampleHash sampleRead tVal oPass
     "/etc/nginx/nginx.conf" "/files/nginx.conf" rfl rfl (by decide)
     (fun _ => none)⟩

end DeployConfig

namespace LinuxUtils

/-- Boolean round-trip check: `octal_to_symbolic` succeeds, yields nine
characters, and `symbolic_to_octal` maps them back to the input. -/
def rtCheck (l : List Char) : Bool :=
  match octal_to_symbolic l with
  | none => false
  | some sym => sym.length == 9 && (symbolic_to_octal sym == some l)

/-- Round trip for all one-digit octal strings with nonzero first digit. -/
theorem rtCheck_one : ∀ a : Fin 8, a.val ≠ 0 →
    rtCheck [Nat.digitChar a.val] = true := by decide

/-- Round trip for all two-digit octal strings with nonzero first digit. -/
theorem rtCheck_two : ∀ a b : Fin 8, a.val ≠ 0 →
    rtCheck [Nat.digitChar a.val, Nat.digitChar b.val] = true := by decide

/-- Round trip for all three-digit octal strings with nonzero first digit. -/
theorem rtCheck_three : ∀ a b c : Fin 8, a.val ≠ 0 →
    rtCheck [Nat.digitChar a.val, Nat.digitChar b.val, Nat.digitChar c.val] = true := by
  decide

/-- Unfolding of a successful `rtCheck` into the round-trip statement. -/
theorem rtCheck_spec (l : List Char) (h : rtCheck l = true) :
    ∃ sym, octal_to_symbolic l = some sym ∧ sym.length = 9 ∧
      symbolic_to_octal sym = some l := by
  unfold rtCheck at h
  cases hos : octal_to_symbolic l with
  | none => rw [hos] at h; cases h
  | some sym =>
      rw [hos] at h
      simp only [Bool.and_eq_true, beq_iff_eq] at h
      exact ⟨sym, rfl, h.1, h.2⟩

/-- A character accepted as an octal digit is `Nat.digitChar` of its digit
value, which is below 8. -/
theorem isOctalDigit_eq_digitChar (c : Char) (h : isOctalDigit c = true) :
    c.toNat - 48 < 8 ∧ c = Nat.digitChar (c.toNat - 48) := by
  have hb : 48 ≤ c.toNat ∧ c.toNat ≤ 55 := by
    simpa [isOctalDigit, Bool.and_eq_true, decide_eq_true_eq] using h
  refine ⟨by omega, ?_⟩
  have hc := Char.ofNat_toNat c
  have hcases : c.toNat = 48 ∨ c.toNat = 49 ∨ c.toNat = 50 ∨ c.toNat = 51 ∨
      c.toNat = 52 ∨ c.toNat = 53 ∨ c.toNat = 54 ∨ c.toNat = 55 := by omega
  have hkey : Char.ofNat c.toNat = Nat.digitChar (c.toNat - 48) := by
    rcases hcases with h' | h' | h' | h' | h' | h' | h' | h' <;> rw [h'] <;> decide
  rw [hc] at hkey
  exact hkey

end LinuxUtils

namespace LinuxUtils

/-- C9: converting a string of one to three octal digits whose first
character is not `'0'` with `octal_to_symbolic` yields a nine-character
symbolic string, and `symbolic_to_octal` maps that string back to the
original input. -/
theorem claim_C9_octal_symbolic_roundtrip (l : List Char)
    (h1 : l ≠ []) (h3 : l.length ≤ 3)
    (hall : l.all isOctalDigit = true) (h0 : l.head? ≠ some '0') :
    ∃ sym, octal_to_symbolic l = some sym ∧ sym.length = 9 ∧
      symbolic_to_octal sym = some l := by
  apply rtCheck_spec
  rcases l with _ | ⟨a, _ | ⟨b, _ | ⟨c0, rest⟩⟩⟩
  · exact absurd rfl h1
  · have ha : isOctalDigit a = true := by simpa using hall
    obtain ⟨hka, hda⟩ := isOctalDigit_eq_digitChar a ha
    have ha0 : a ≠ '0' := by simpa using h0
    have hne : a.toNat - 48 ≠ 0 := by
      intro hz
      apply ha0
      rw [hda, hz]
      rfl
    rw [hda]
    exact rtCheck_one ⟨a.toNat - 48, hka⟩ hne
  · have h' : isOctalDigit a = true ∧ isOctalDigit b = true := by simpa using hall
    obtain ⟨hka, hda⟩ := isOctalDigit_eq_digitChar a h'.1
    obtain ⟨hkb, hdb⟩ := isOctalDigit_eq_digitChar b h'.2
    have ha0 : a ≠ '0' := by simpa using h0
    have hne : a.toNat - 48 ≠ 0 := by
      intro hz
      apply ha0
      rw [hda, hz]
      rfl
    rw [hda, hdb]
    exact rtCheck_two ⟨a.toNat - 48, hka⟩ ⟨b.toNat - 48, hkb⟩ hne
  · have hrest : rest = [] := by
      cases rest with
      | nil => rfl
      | cons x xs => simp [List.length_cons] at h3
    subst hrest
    have h' : isOctalDigit a = true ∧ isOctalDigit b = true ∧
        isOctalDigit c0 = true := by simpa using hall
    obtain ⟨hka, hda⟩ := isOctalDigit_eq_digitChar a h'.1
    obtain ⟨hkb, hdb⟩ := isOctalDigit_eq_digitChar b h'.2.1
    obtain ⟨hkc, hdc⟩ := isOctalDigit_eq_digitChar c0 h'.2.2
    have ha0 : a ≠ '0' := by simpa using h0
    have hne : a.toNat - 48 ≠ 0 := by
      intro hz
      apply ha0
      rw [hda, hz]
      rfl
    rw [hda, hdb, hdc]
    exact rtCheck_three ⟨a.toNat - 48, hka⟩ ⟨b.toNat - 48, hkb⟩
      ⟨c0.toNat - 48, hkc⟩ hne

/-- Witness for C9 at the concrete permission string `755`. -/
theorem claim_C9_octal_symbolic_roundtrip_witness :
    (['7', '5', '5'] : List Char) ≠ [] ∧
    (['7', '5', '5'] : List Char).length ≤ 3 ∧
    (['7', '5', '5'] : List Char).all isOctalDigit = true ∧
    (['7', '5', '5'] : List Char).head? ≠ some '0' ∧
    (∃ sym, octal_to_symbolic ['7', '5', '5'] = some sym ∧ sym.length = 9 ∧
      symbolic_to_octal sym = some ['7', '5', '5']) :=
  ⟨by decide, by decide, by decide, by decide,
   claim_C9_octal_symbolic_roundtrip ['7', '5', '5']
     (by decide) (by decide) (by decide) (by decide)⟩

/-- C10: `calculate_disk_usage_percent` returns `0.0` whenever `total` is
zero instead of raising a division error; for non-zero `total` it returns
`(used / total) * 100` rounded to two decimal places; and it raises the
filter error exactly when one of the arguments is not convertible to a
number. -/
theorem claim_C10_disk_usage_percent_total_zero :
    (∀ u : ℚ, calculate_disk_usage_percent (some u) (some 0) = Except.ok 0) ∧
    (∀ u t : ℚ, t ≠ 0 →
      calculate_disk_usage_percent (some u) (some t) =
        Except.ok (roundTo2 (u / t * 100))) ∧
    (∀ u t : Option ℚ,
      (∃ e, calculate_disk_usage_percent u t = Except.error e) ↔
        (u = none ∨ t = none)) := by
  refine ⟨fun u => by simp [calculate_disk_usage_percent],
    fun u t ht => by simp [calculate_disk_usage_percent, ht],
    fun u t => ?_⟩
  cases u with
  | none => simp [calculate_disk_usage_percent]
  | some u =>
      cases t with
      | none => simp [calculate_disk_usage_percent]
      | some t =>
          by_cases ht : t = 0 <;> simp [calculate_disk_usage_percent, ht]

end LinuxUtils
